import Mathlib

/-!
Shallow embedding of `src/core/spaced_repetition.py` (FlashCard-Maker).

Python floats are modelled as rationals (ℚ); all constants involved
(2.5, 0.2, 0.15, 0.1, 0.02, 1.2, 1.3, 5.0) and the operations used on them
(add, sub, min, max, compare) are exact enough that no claim here hinges on
binary floating-point rounding; where a claim does touch rounding (the
interval computation) the chosen concrete inputs give the same value in
IEEE double and in ℚ.

Python `datetime` values are modelled as an instant (`epoch`, an integer
number of minutes) plus an optional `tz` offset; `tz = none` models a naive
(timezone-less) datetime, `tz = some 0` a UTC-aware one.  `isoformat` /
`fromisoformat` are modelled as an abstract codec (`TsStr`): `isoformat`
injects a datetime into the string type and `fromisoformat` recovers it,
raising (returning `.error`) on any other string — faithful to Python, where
`fromisoformat` round-trips `isoformat` output exactly and raises
`ValueError` on unparseable input.

The Python dict `review_data` is modelled as an association list in
insertion order with unique keys, matching Python's ordered-dict
semantics (`setKey` updates in place or appends).
-/

namespace FlashCard

/-- `ReviewResult` enum: AGAIN=0, HARD=1, GOOD=2, EASY=3. -/
inductive ReviewResult where
  | AGAIN
  | HARD
  | GOOD
  | EASY
deriving DecidableEq, Repr

/-- `result.value` — the numeric code of the enum member. -/
def ReviewResult.value : ReviewResult → Int
  | .AGAIN => 0
  | .HARD => 1
  | .GOOD => 2
  | .EASY => 3

/-- `ReviewResult(v)` — Python enum lookup by value; raises `ValueError`
(here `.error`) for a code outside 0..3. -/
def ReviewResult.fromValue (v : Int) : Except String ReviewResult :=
  if v = 0 then .ok .AGAIN
  else if v = 1 then .ok .HARD
  else if v = 2 then .ok .GOOD
  else if v = 3 then .ok .EASY
  else .error "is not a valid ReviewResult"

/-- Python `datetime`: an instant in minutes since the epoch plus an optional
timezone offset (`none` = naive). -/
structure PyDateTime where
  epoch : Int
  tz : Option Int
deriving DecidableEq, Repr

/-- `datetime.now(timezone.utc)` at clock reading `t` (minutes). -/
def nowUTC (t : Int) : PyDateTime := ⟨t, some 0⟩

/-- A datetime is naive when it carries no timezone offset. -/
def PyDateTime.naive (d : PyDateTime) : Bool := d.tz = none

/-- `a <= b` on datetimes.  Python compares the instants of two aware
datetimes (and raises `TypeError` on a naive/aware mix; every theorem below
only ever compares the UTC-aware values the engine itself produces, where
this definition coincides with Python). -/
def dtLe (a b : PyDateTime) : Bool :=
  a.epoch - a.tz.getD 0 ≤ b.epoch - b.tz.getD 0

/-- Timestamp strings: either the `isoformat` output of some datetime or an
unparseable string. -/
inductive TsStr where
  | iso (d : PyDateTime)
  | garbage (s : String)
deriving DecidableEq, Repr

/-- `datetime.isoformat`. -/
def isoformat (d : PyDateTime) : TsStr := .iso d

/-- `datetime.fromisoformat`: recovers the datetime from `isoformat` output,
raises `ValueError` (here `.error`) on anything else. -/
def fromisoformat : TsStr → Except String PyDateTime
  | .iso d => .ok d
  | .garbage s => .error ("Invalid isoformat string: " ++ s)

/-- Python `int(x)` on a nonnegative-or-negative real: truncation toward
zero. -/
def pyInt (q : ℚ) : Int := if 0 ≤ q then ⌊q⌋ else -⌊-q⌋

/-- `ReviewData` dataclass, with its field defaults. -/
structure ReviewData where
  ease_factor : ℚ := 5 / 2
  interval : Int := 1
  repetition : Int := 0
  last_review : Option PyDateTime := none
  next_review : Option PyDateTime := none
  total_reviews : Int := 0
  total_time_spent : ℚ := 0
  learning_step : Int := 0
  graduated : Bool := false
  response_times : List ℚ := []
  review_history : List (PyDateTime × ReviewResult × ℚ) := []
deriving DecidableEq, Repr

/-- `ReviewData()` — a fresh record with all defaults. -/
def ReviewData.init : ReviewData := {}

/-- `ReviewData.add_review(result, response_time)` called when the clock
reads `t`: append to history and response times, bump counters, keep only
the last 50 response times (`self.response_times[-50:]`). -/
def ReviewData.add_review (d : ReviewData) (t : Int) (result : ReviewResult)
    (response_time : ℚ) : ReviewData :=
  let d := { d with
    review_history := d.review_history ++ [(nowUTC t, result, response_time)],
    response_times := d.response_times ++ [response_time],
    total_reviews := d.total_reviews + 1,
    total_time_spent := d.total_time_spent + response_time }
  if 50 < d.response_times.length then
    { d with response_times := d.response_times.drop (d.response_times.length - 50) }
  else d

-- Engine constants.
def LEARNING_STEPS : List Int := [1, 10, 1440]
def GRADUATING_INTERVAL : Int := 1
def EASY_INTERVAL : Int := 4
def HARD_INTERVAL_FACTOR : ℚ := 6 / 5
def EASY_INTERVAL_FACTOR : ℚ := 13 / 10
def MIN_EASE_FACTOR : ℚ := 13 / 10
def MAX_EASE_FACTOR : ℚ := 5

/-- `SpacedRepetitionEngine._process_learning_review`. -/
def processLearningReview (d : ReviewData) (result : ReviewResult) : ReviewData :=
  if result = .AGAIN then
    { d with learning_step := 0 }
  else if result = .GOOD ∨ result = .EASY then
    let d := { d with learning_step := d.learning_step + 1 }
    if (LEARNING_STEPS.length : Int) ≤ d.learning_step then
      let d := { d with graduated := true, repetition := 1 }
      if result = .EASY then { d with interval := EASY_INTERVAL }
      else { d with interval := GRADUATING_INTERVAL }
    else d
  else -- HARD: stay at current step
    d

/-- `SpacedRepetitionEngine._update_ease_factor`. -/
def updateEaseFactor (d : ReviewData) (result : ReviewResult) : ReviewData :=
  if result = .HARD then
    { d with ease_factor := max MIN_EASE_FACTOR (d.ease_factor - 3/20) }
  else if result = .EASY then
    { d with ease_factor := min MAX_EASE_FACTOR (d.ease_factor + 1/10) }
  else if result = .GOOD then
    { d with ease_factor := max MIN_EASE_FACTOR (d.ease_factor - 1/50) }
  else d

/-- `SpacedRepetitionEngine._process_graduated_review`.  Note the interval
branches use Python `int(...)`, i.e. truncation toward zero (`pyInt`). -/
def processGraduatedReview (d : ReviewData) (result : ReviewResult) : ReviewData :=
  if result = .AGAIN then
    { d with graduated := false, learning_step := 0, repetition := 0, interval := 1,
             ease_factor := max MIN_EASE_FACTOR (d.ease_factor - 1/5) }
  else
    let d := updateEaseFactor d result
    let d :=
      if d.repetition = 0 then { d with interval := 1 }
      else if d.repetition = 1 then { d with interval := 6 }
      else if result = .HARD then
        { d with interval := max 1 (pyInt ((d.interval : ℚ) * HARD_INTERVAL_FACTOR)) }
      else if result = .EASY then
        { d with interval := pyInt ((d.interval : ℚ) * d.ease_factor * EASY_INTERVAL_FACTOR) }
      else -- GOOD
        { d with interval := pyInt ((d.interval : ℚ) * d.ease_factor) }
    { d with repetition := d.repetition + 1 }

/-- Python list indexing `xs[i]` (negative `i` counts from the end);
out-of-range access raises `IndexError` in Python and is modelled by the
default 0 — unreachable from the operations proved about below, whose
states keep `learning_step` within `[0, len(LEARNING_STEPS)]`. -/
def pyIndexD (xs : List Int) (i : Int) : Int :=
  if 0 ≤ i then xs.getD i.toNat 0
  else xs.getD ((xs.length : Int) + i).toNat 0

/-- `SpacedRepetitionEngine._calculate_next_review` with the clock reading
`t` minutes; `timedelta(minutes=m)` adds `m`, `timedelta(days=n)` adds
`1440 * n`. -/
def calculateNextReview (d : ReviewData) (t : Int) : ReviewData :=
  if d.graduated = false then
    if d.learning_step < (LEARNING_STEPS.length : Int) then
      { d with next_review := some (nowUTC (t + pyIndexD LEARNING_STEPS d.learning_step)) }
    else
      { d with next_review := some (nowUTC (t + 1440)) }
  else
    { d with next_review := some (nowUTC (t + 1440 * d.interval)) }

/-- The engine's state: the `review_data` dict, as an insertion-ordered
association list with unique keys. -/
structure Engine where
  review_data : List (String × ReviewData)
deriving DecidableEq, Repr

/-- `SpacedRepetitionEngine()` — fresh engine, empty mapping. -/
def Engine.fresh : Engine := ⟨[]⟩

/-- Dict lookup. -/
def lookup (m : List (String × ReviewData)) (k : String) : Option ReviewData :=
  match m with
  | [] => none
  | (k', v) :: rest => if k' = k then some v else lookup rest k

/-- Dict assignment `m[k] = v`: update in place if present, append if
absent (Python dicts keep insertion order). -/
def setKey (m : List (String × ReviewData)) (k : String) (v : ReviewData) :
    List (String × ReviewData) :=
  match m with
  | [] => [(k, v)]
  | (k', v') :: rest => if k' = k then (k', v) :: rest else (k', v') :: setKey rest k v

/-- `SpacedRepetitionEngine.get_review_data`: get-or-create.  Returns the
record together with the (possibly grown) engine state. -/
def Engine.get_review_data (e : Engine) (card_id : String) : ReviewData × Engine :=
  match lookup e.review_data card_id with
  | some d => (d, e)
  | none => (ReviewData.init, ⟨setKey e.review_data card_id ReviewData.init⟩)

/-- The `if not data.graduated: ... else: ...` dispatch of `review_card`. -/
def processPhase (d : ReviewData) (result : ReviewResult) : ReviewData :=
  if d.graduated = false then processLearningReview d result
  else processGraduatedReview d result

/-- The statement sequence of the `review_card` body acting on the card's
record: `add_review`, set `last_review`, branch on `graduated`
(`processPhase`), recompute `next_review`. -/
def reviewUpdate (d : ReviewData) (t : Int) (result : ReviewResult)
    (response_time : ℚ) : ReviewData :=
  calculateNextReview
    (processPhase { d.add_review t result response_time with
                    last_review := some (nowUTC t) } result) t

/-- `SpacedRepetitionEngine.review_card(card_id, result, response_time)`
with the clock reading `t` minutes.  The Python body mutates the record
obtained from `get_review_data` through the dict's reference, so the final
mapping is the original one with `card_id` bound to the updated record —
written in place if the key existed, appended otherwise (exactly what
`setKey` does; `get_review_data`'s own insertion puts a brand-new key in
the same final position). -/
def Engine.review_card (e : Engine) (t : Int) (card_id : String)
    (result : ReviewResult) (response_time : ℚ) : Engine :=
  ⟨setKey e.review_data card_id
    (reviewUpdate (e.get_review_data card_id).1 t result response_time)⟩

/-- Whether a single card is reported due by the body of the
`get_due_cards` loop (an absent record is created with `next_review = None`
and so counts as due). -/
def Engine.isDue (e : Engine) (t : Int) (card_id : String) : Bool :=
  match lookup e.review_data card_id with
  | none => true
  | some d =>
    match d.next_review with
    | none => true
    | some nr => dtLe nr (nowUTC t)

/-- `SpacedRepetitionEngine.get_due_cards(card_ids)` with the clock reading
`t`.  Returns the due list together with the resulting engine state (the
loop's `get_review_data` calls create records for unseen ids). -/
def Engine.get_due_cards (e : Engine) (t : Int) (card_ids : List String) :
    List String × Engine :=
  match card_ids with
  | [] => ([], e)
  | card_id :: rest =>
    let data := (e.get_review_data card_id).1
    let e1 := (e.get_review_data card_id).2
    let hit :=
      match data.next_review with
      | none => true
      | some nr => dtLe nr (nowUTC t)
    (if hit then card_id :: (e1.get_due_cards t rest).1 else (e1.get_due_cards t rest).1,
     (e1.get_due_cards t rest).2)

/-- The dictionary returned by `get_study_stats`. -/
structure StudyStats where
  total_cards : Int
  new_cards : Int
  learning_cards : Int
  due_cards : Int
  total_reviews : Int
  average_ease : ℚ
  average_interval : ℚ
  success_rate : ℚ
  total_study_time : ℚ
deriving DecidableEq, Repr

/-- Accumulator state of the `get_study_stats` loop. -/
structure StatsAcc where
  new_cards : Int := 0
  learning_cards : Int := 0
  due_cards : Int := 0
  total_reviews : Int := 0
  total_ease : ℚ := 0
  total_interval : ℚ := 0
  graduated_count : Int := 0
  total_study_time : ℚ := 0
  successful_reviews : Int := 0
deriving DecidableEq, Repr

/-- One iteration of the `get_study_stats` loop body on record `d`. -/
def statsStep (t : Int) (acc : StatsAcc) (d : ReviewData) : StatsAcc :=
  let acc :=
    if d.next_review = none then { acc with new_cards := acc.new_cards + 1 }
    else if d.graduated = false then { acc with learning_cards := acc.learning_cards + 1 }
    else if (d.next_review.map (fun nr => dtLe nr (nowUTC t))).getD false then
      { acc with due_cards := acc.due_cards + 1 }
    else acc
  let acc := { acc with
    total_reviews := acc.total_reviews + d.total_reviews,
    total_study_time := acc.total_study_time + d.total_time_spent }
  let acc :=
    if d.graduated then
      { acc with total_ease := acc.total_ease + d.ease_factor,
                 total_interval := acc.total_interval + (d.interval : ℚ),
                 graduated_count := acc.graduated_count + 1 }
    else acc
  { acc with successful_reviews := acc.successful_reviews +
      ((d.review_history.filter (fun h => h.2.1 = .GOOD ∨ h.2.1 = .EASY)).length : Int) }

/-- The `get_study_stats` loop over the requested ids (creating records for
unseen ids, as `get_review_data` does). -/
def Engine.statsLoop (e : Engine) (t : Int) (card_ids : List String)
    (acc : StatsAcc) : StatsAcc × Engine :=
  match card_ids with
  | [] => (acc, e)
  | card_id :: rest =>
    ((e.get_review_data card_id).2).statsLoop t rest
      (statsStep t acc ((e.get_review_data card_id).1))

/-- `SpacedRepetitionEngine.get_study_stats(card_ids)` with the clock
reading `t`.  Returns the stats together with the resulting engine state. -/
def Engine.get_study_stats (e : Engine) (t : Int) (card_ids : List String) :
    StudyStats × Engine :=
  if card_ids = [] then
    ({ total_cards := 0, new_cards := 0, learning_cards := 0, due_cards := 0,
       total_reviews := 0, average_ease := 0, average_interval := 0,
       success_rate := 0, total_study_time := 0 }, e)
  else
    let acc := (e.statsLoop t card_ids {}).1
    ({ total_cards := (card_ids.length : Int),
       new_cards := acc.new_cards,
       learning_cards := acc.learning_cards,
       due_cards := acc.due_cards,
       total_reviews := acc.total_reviews,
       average_ease := if 0 < acc.graduated_count
         then acc.total_ease / (acc.graduated_count : ℚ) else 5/2,
       average_interval := if 0 < acc.graduated_count
         then acc.total_interval / (acc.graduated_count : ℚ) else 0,
       success_rate := if 0 < acc.total_reviews
         then (acc.successful_reviews : ℚ) / (acc.total_reviews : ℚ) else 0,
       total_study_time := acc.total_study_time },
     (e.statsLoop t card_ids {}).2)

/-- One card's entry in the serialized snapshot (§6 shape).  Export always
writes every field, so the snapshot record is total; the `.get(key,
default)` fallbacks of `import_data` for absent keys are therefore never
exercised and are not modelled. -/
structure CardSnapshot where
  ease_factor : ℚ
  interval : Int
  repetition : Int
  last_review : Option TsStr
  next_review : Option TsStr
  total_reviews : Int
  total_time_spent : ℚ
  learning_step : Int
  graduated : Bool
  response_times : List ℚ
  review_history : List (TsStr × Int × ℚ)
deriving DecidableEq, Repr

/-- The per-card body of `SpacedRepetitionEngine.export_data`. -/
def exportCard (d : ReviewData) : CardSnapshot :=
  { ease_factor := d.ease_factor,
    interval := d.interval,
    repetition := d.repetition,
    last_review := d.last_review.map isoformat,
    next_review := d.next_review.map isoformat,
    total_reviews := d.total_reviews,
    total_time_spent := d.total_time_spent,
    learning_step := d.learning_step,
    graduated := d.graduated,
    response_times := d.response_times,
    review_history := d.review_history.map (fun h => (isoformat h.1, h.2.1.value, h.2.2)) }

/-- `SpacedRepetitionEngine.export_data()`. -/
def Engine.export_data (e : Engine) : List (String × CardSnapshot) :=
  e.review_data.map (fun p => (p.1, exportCard p.2))

/-- Parse one `review_history` entry: `datetime.fromisoformat` then
`ReviewResult(result_val)`, either of which may raise. -/
def parseHistoryEntry (h : TsStr × Int × ℚ) :
    Except String (PyDateTime × ReviewResult × ℚ) :=
  match fromisoformat h.1 with
  | .error msg => .error msg
  | .ok timestamp =>
    match ReviewResult.fromValue h.2.1 with
    | .error msg => .error msg
    | .ok result => .ok (timestamp, result, h.2.2)

/-- Parse the whole `review_history` list in order, stopping at the first
failure. -/
def parseHistory (hs : List (TsStr × Int × ℚ)) :
    Except String (List (PyDateTime × ReviewResult × ℚ)) :=
  match hs with
  | [] => .ok []
  | h :: rest =>
    match parseHistoryEntry h with
    | .error msg => .error msg
    | .ok entry =>
      match parseHistory rest with
      | .error msg => .error msg
      | .ok entries => .ok (entry :: entries)

/-- Parse an optional timestamp field: absent (`None`, falsy under
`if card_data.get(...)`) stays absent; present goes through
`datetime.fromisoformat`, which may raise. -/
def parseOptTs : Option TsStr → Except String (Option PyDateTime)
  | none => .ok none
  | some ts =>
    match fromisoformat ts with
    | .error msg => .error msg
    | .ok d => .ok (some d)

/-- The per-card body of `SpacedRepetitionEngine.import_data`: build a
`ReviewData` from one snapshot entry; any `fromisoformat` /
`ReviewResult(...)` failure propagates.  All other fields are copied
verbatim with no validation. -/
def importCard (c : CardSnapshot) : Except String ReviewData :=
  match parseOptTs c.last_review with
  | .error msg => .error msg
  | .ok last_review =>
    match parseOptTs c.next_review with
    | .error msg => .error msg
    | .ok next_review =>
      match parseHistory c.review_history with
      | .error msg => .error msg
      | .ok history =>
        .ok { ease_factor := c.ease_factor,
              interval := c.interval,
              repetition := c.repetition,
              last_review := last_review,
              next_review := next_review,
              total_reviews := c.total_reviews,
              total_time_spent := c.total_time_spent,
              learning_step := c.learning_step,
              graduated := c.graduated,
              response_times := c.response_times,
              review_history := history }

/-- `SpacedRepetitionEngine.import_data(data)`.  The Python loop assigns
`self.review_data[card_id] = review_data` at the end of each iteration, so
an exception raised by a later entry leaves the earlier assignments in
place: the result is the state reached so far, paired with the error if one
was raised. -/
def Engine.import_data (e : Engine) (snapshot : List (String × CardSnapshot)) :
    Engine × Option String :=
  match snapshot with
  | [] => (e, none)
  | (card_id, c) :: rest =>
    match importCard c with
    | .error msg => (e, some msg)
    | .ok d => Engine.import_data ⟨setKey e.review_data card_id d⟩ rest

/-- The public operations of the engine, each tagged with the clock reading
at call time. -/
inductive Op where
  | review (card_id : String) (result : ReviewResult) (response_time : ℚ) (t : Int)
  | getDue (card_ids : List String) (t : Int)
  | getStats (card_ids : List String) (t : Int)
  | importData (snapshot : List (String × CardSnapshot))

/-- State transition of one public operation. -/
def Engine.step (e : Engine) : Op → Engine
  | .review card_id result response_time t => e.review_card t card_id result response_time
  | .getDue card_ids t => (e.get_due_cards t card_ids).2
  | .getStats card_ids t => (e.get_study_stats t card_ids).2
  | .importData snapshot => (e.import_data snapshot).1

/-- Run a sequence of public operations. -/
def Engine.run (e : Engine) (ops : List Op) : Engine := ops.foldl Engine.step e

/-- Whether an operation is a `review` of the given card id. -/
def Op.reviews (card_id : String) : Op → Prop
  | .review id _ _ _ => id = card_id
  | _ => False

/-- Whether an operation is an `import_data` call. -/
def Op.isImport : Op → Prop
  | .importData _ => True
  | _ => False

/-- Whether an operation is a `review` call. -/
def Op.isReview : Op → Prop
  | .review _ _ _ _ => True
  | _ => False

instance (card_id : String) (op : Op) : Decidable (op.reviews card_id) := by
  cases op <;> simp [Op.reviews] <;> infer_instance

instance (op : Op) : Decidable op.isImport := by
  cases op <;> simp [Op.isImport] <;> infer_instance

instance (op : Op) : Decidable op.isReview := by
  cases op <;> simp [Op.isReview] <;> infer_instance

/-- Whether one snapshot entry parses without error. -/
def importsOk (c : CardSnapshot) : Bool :=
  match importCard c with
  | .ok _ => true
  | .error _ => false

/-- Modelled from the spec's words, for comparison with the code (claim
C2): graduated-interval recomputation with mathematical round-to-nearest
(`HARD → max(1, round(interval × 1.2))`, `EASY → round(interval ×
ease_factor × 1.3)`, `GOOD → round(interval × ease_factor)`, the ease
factor being the one already adjusted for this review). -/
def specGradInterval (d : ReviewData) (result : ReviewResult) : Int :=
  if result = .HARD then
    max 1 (round ((d.interval : ℚ) * HARD_INTERVAL_FACTOR))
  else if result = .EASY then
    round ((d.interval : ℚ) * (updateEaseFactor d result).ease_factor * EASY_INTERVAL_FACTOR)
  else
    round ((d.interval : ℚ) * (updateEaseFactor d result).ease_factor)

/-- The same formulas with Python `int(...)` truncation in place of
rounding — what the code actually computes (claim C2, amended). -/
def specGradIntervalTrunc (d : ReviewData) (result : ReviewResult) : Int :=
  if result = .HARD then
    max 1 (pyInt ((d.interval : ℚ) * HARD_INTERVAL_FACTOR))
  else if result = .EASY then
    pyInt ((d.interval : ℚ) * (updateEaseFactor d result).ease_factor * EASY_INTERVAL_FACTOR)
  else
    pyInt ((d.interval : ℚ) * (updateEaseFactor d result).ease_factor)

-- Concrete instances used by counterexamples and witnesses.

/-- A graduated record with `repetition = 2`, `interval = 3` and the
default ease factor 2.5. -/
def dGrad3 : ReviewData := { graduated := true, repetition := 2, interval := 3 }

/-- An engine holding one fresh record for card `"a"`. -/
def eng1 : Engine := ⟨[("a", ReviewData.init)]⟩

/-- A well-formed snapshot entry. -/
def goodSnap : CardSnapshot :=
  { ease_factor := 2, interval := 1, repetition := 0, last_review := none,
    next_review := none, total_reviews := 0, total_time_spent := 0,
    learning_step := 0, graduated := false, response_times := [],
    review_history := [] }

/-- A snapshot entry whose `last_review` string is unparseable. -/
def badSnap : CardSnapshot := { goodSnap with last_review := some (.garbage "xx") }

/-- A snapshot entry carrying a naive (timezone-less) `last_review`
timestamp. -/
def naiveSnap : CardSnapshot := { goodSnap with last_review := some (.iso ⟨0, none⟩) }

/-- A snapshot entry declaring a graduated card with `interval = 0`. -/
def badGradSnap : CardSnapshot := { goodSnap with graduated := true, interval := 0 }

/-- A snapshot entry with 51 response times. -/
def longSnap : CardSnapshot := { goodSnap with response_times := List.replicate 51 1 }

/-- A snapshot entry scheduling its card far in the future: an aware UTC
`next_review` at epoch minute 1000000. -/
def futureSnap : CardSnapshot :=
  { goodSnap with next_review := some (.iso ⟨1000000, some 0⟩) }

/-- The record-level inductive invariant maintained by `review_card`:
ease factor within its bounds and a positive interval. -/
def RecInv (d : ReviewData) : Prop :=
  MIN_EASE_FACTOR ≤ d.ease_factor ∧ d.ease_factor ≤ MAX_EASE_FACTOR ∧ 1 ≤ d.interval

theorem lookup_setKey (m : List (String × ReviewData)) (k : String) (v : ReviewData)
    (x : String) : lookup (setKey m k v) x = if k = x then some v else lookup m x := by
  induction m with
  | nil => simp [setKey, lookup]
  | cons p rest ih =>
    obtain ⟨k', v'⟩ := p
    by_cases hk : k' = k
    · subst hk
      by_cases hx : k' = x <;> simp [setKey, lookup, hx]
    · by_cases hx : k' = x
      · subst hx
        have hkx : ¬ k = k' := fun h => hk h.symm
        simp [setKey, lookup, hk, hkx]
      · simp [setKey, lookup, hk, hx, ih]

theorem setKey_of_lookup_none (m : List (String × ReviewData)) (k : String)
    (v : ReviewData) (h : lookup m k = none) : setKey m k v = m ++ [(k, v)] := by
  induction m with
  | nil => simp [setKey]
  | cons p rest ih =>
    obtain ⟨k', v'⟩ := p
    by_cases hk : k' = k
    · simp [lookup, hk] at h
    · simp only [lookup, if_neg hk] at h
      simp [setKey, hk, ih h]

theorem lookup_append_single (m : List (String × ReviewData)) (k : String)
    (v : ReviewData) (x : String) :
    lookup (m ++ [(k, v)]) x =
      match lookup m x with
      | some d => some d
      | none => if k = x then some v else none := by
  induction m with
  | nil => simp [lookup]
  | cons p rest ih =>
    obtain ⟨k', v'⟩ := p
    by_cases hx : k' = x <;> simp [lookup, hx, ih]

theorem add_review_preserves (d : ReviewData) (t : Int) (r : ReviewResult) (x : ℚ) :
    (d.add_review t r x).ease_factor = d.ease_factor ∧
    (d.add_review t r x).interval = d.interval ∧
    (d.add_review t r x).repetition = d.repetition ∧
    (d.add_review t r x).graduated = d.graduated ∧
    (d.add_review t r x).learning_step = d.learning_step := by
  simp only [ReviewData.add_review]
  split <;> exact ⟨rfl, rfl, rfl, rfl, rfl⟩

theorem add_review_resp (d : ReviewData) (t : Int) (r : ReviewResult) (x : ℚ) :
    (d.add_review t r x).response_times =
      (d.response_times ++ [x]).drop ((d.response_times ++ [x]).length - 50) := by
  simp only [ReviewData.add_review]
  split
  · rfl
  · rename_i h
    simp only [List.length_append, List.length_cons, List.length_nil] at h ⊢
    have : d.response_times.length + (0 + 1) - 50 = 0 := by omega
    rw [this, List.drop_zero]

theorem add_review_resp_length (d : ReviewData) (t : Int) (r : ReviewResult) (x : ℚ) :
    (d.add_review t r x).response_times.length ≤ 50 := by
  rw [add_review_resp, List.length_drop, List.length_append]
  simp only [List.length_cons, List.length_nil]
  omega

theorem update_ease_preserves (d : ReviewData) (r : ReviewResult) :
    (updateEaseFactor d r).interval = d.interval ∧
    (updateEaseFactor d r).repetition = d.repetition ∧
    (updateEaseFactor d r).graduated = d.graduated ∧
    (updateEaseFactor d r).response_times = d.response_times := by
  cases r <;> exact ⟨rfl, rfl, rfl, rfl⟩

theorem update_ease_bounds (d : ReviewData) (r : ReviewResult)
    (h1 : MIN_EASE_FACTOR ≤ d.ease_factor) (h2 : d.ease_factor ≤ MAX_EASE_FACTOR) :
    MIN_EASE_FACTOR ≤ (updateEaseFactor d r).ease_factor ∧
    (updateEaseFactor d r).ease_factor ≤ MAX_EASE_FACTOR := by
  have hmm : MIN_EASE_FACTOR ≤ MAX_EASE_FACTOR := by
    unfold MIN_EASE_FACTOR MAX_EASE_FACTOR; norm_num
  cases r
  · exact ⟨h1, h2⟩
  · exact ⟨le_max_left _ _, max_le hmm (by linarith)⟩
  · exact ⟨le_max_left _ _, max_le hmm (by linarith)⟩
  · exact ⟨le_min hmm (by linarith), min_le_left _ _⟩

theorem learn_preserves (d : ReviewData) (r : ReviewResult) :
    (processLearningReview d r).ease_factor = d.ease_factor ∧
    (processLearningReview d r).response_times = d.response_times := by
  simp only [processLearningReview]
  repeat' split
  all_goals exact ⟨rfl, rfl⟩

theorem learn_interval_ge (d : ReviewData) (r : ReviewResult) (h : 1 ≤ d.interval) :
    1 ≤ (processLearningReview d r).interval := by
  simp only [processLearningReview]
  repeat' split
  all_goals first
    | exact h
    | exact (by decide : (1 : Int) ≤ 4)
    | exact (by decide : (1 : Int) ≤ 1)

theorem learn_AGAIN (d : ReviewData) :
    processLearningReview d .AGAIN = { d with learning_step := 0 } := rfl

theorem learn_HARD (d : ReviewData) : processLearningReview d .HARD = d := rfl

theorem calc_preserves (d : ReviewData) (t : Int) :
    (calculateNextReview d t).ease_factor = d.ease_factor ∧
    (calculateNextReview d t).interval = d.interval ∧
    (calculateNextReview d t).repetition = d.repetition ∧
    (calculateNextReview d t).graduated = d.graduated ∧
    (calculateNextReview d t).learning_step = d.learning_step ∧
    (calculateNextReview d t).response_times = d.response_times := by
  simp only [calculateNextReview]
  repeat' split
  all_goals exact ⟨rfl, rfl, rfl, rfl, rfl, rfl⟩

theorem calc_next_aware (d : ReviewData) (t : Int) :
    ∀ nr : PyDateTime, (calculateNextReview d t).next_review = some nr →
      nr.tz = some 0 := by
  simp only [calculateNextReview]
  repeat' split
  all_goals intro nr h
  all_goals injection h with h1
  all_goals rw [← h1]
  all_goals rfl

theorem reviewUpdate_next_aware (d : ReviewData) (t : Int) (r : ReviewResult) (x : ℚ) :
    ∀ nr : PyDateTime, (reviewUpdate d t r x).next_review = some nr →
      nr.tz = some 0 := by
  simp only [reviewUpdate]
  exact calc_next_aware _ t

theorem one_le_pyInt (q : ℚ) (h : 1 ≤ q) : 1 ≤ pyInt q := by
  unfold pyInt
  rw [if_pos (by linarith)]
  exact Int.le_floor.mpr (by exact_mod_cast h)

theorem grad_resp (d : ReviewData) (r : ReviewResult) :
    (processGraduatedReview d r).response_times = d.response_times := by
  simp only [processGraduatedReview]
  repeat' split
  all_goals simp [(update_ease_preserves d r).2.2.2]

theorem grad_inv (d : ReviewData) (r : ReviewResult) (h : RecInv d) :
    RecInv (processGraduatedReview d r) := by
  obtain ⟨h1, h2, h3⟩ := h
  have hmin : (0 : ℚ) < MIN_EASE_FACTOR := by unfold MIN_EASE_FACTOR; norm_num
  simp only [processGraduatedReview]
  split
  · exact ⟨le_max_left _ _,
      max_le (by unfold MIN_EASE_FACTOR MAX_EASE_FACTOR; norm_num) (by linarith),
      le_refl 1⟩
  · obtain ⟨hue1, hue2⟩ := update_ease_bounds d r h1 h2
    obtain ⟨hui, hur, _, _⟩ := update_ease_preserves d r
    have hi1 : (1 : ℚ) ≤ ((updateEaseFactor d r).interval : ℚ) := by
      rw [hui]; exact_mod_cast h3
    have hef1 : (1 : ℚ) ≤ (updateEaseFactor d r).ease_factor := by
      have : (1 : ℚ) ≤ MIN_EASE_FACTOR := by unfold MIN_EASE_FACTOR; norm_num
      linarith
    have hi1q : (1 : ℚ) ≤ ((updateEaseFactor d r).interval : ℚ) *
        (updateEaseFactor d r).ease_factor := by
      nlinarith [mul_nonneg
        (by linarith : (0 : ℚ) ≤ ((updateEaseFactor d r).interval : ℚ) - 1)
        (by linarith : (0 : ℚ) ≤ (updateEaseFactor d r).ease_factor - 1)]
    repeat' split
    all_goals refine ⟨hue1, hue2, ?_⟩
    · exact le_refl 1
    · exact (by decide : (1 : Int) ≤ 6)
    · exact le_max_left _ _
    · apply one_le_pyInt
      have hf : (1 : ℚ) ≤ EASY_INTERVAL_FACTOR := by unfold EASY_INTERVAL_FACTOR; norm_num
      nlinarith [mul_nonneg
        (by linarith : (0 : ℚ) ≤ ((updateEaseFactor d r).interval : ℚ) *
          (updateEaseFactor d r).ease_factor - 1)
        (by linarith : (0 : ℚ) ≤ EASY_INTERVAL_FACTOR - 1)]
    · exact one_le_pyInt _ hi1q

theorem processPhase_inv (d2 : ReviewData) (r : ReviewResult) (h : RecInv d2) :
    RecInv (processPhase d2 r) := by
  unfold processPhase
  split
  · exact ⟨by rw [(learn_preserves d2 r).1]; exact h.1,
      by rw [(learn_preserves d2 r).1]; exact h.2.1,
      learn_interval_ge d2 r h.2.2⟩
  · exact grad_inv d2 r h

theorem processPhase_resp (d2 : ReviewData) (r : ReviewResult) :
    (processPhase d2 r).response_times = d2.response_times := by
  unfold processPhase
  split
  · exact (learn_preserves d2 r).2
  · exact grad_resp d2 r

theorem calc_inv (d2 : ReviewData) (t : Int) (h : RecInv d2) :
    RecInv (calculateNextReview d2 t) := by
  obtain ⟨he, hi, _⟩ := calc_preserves d2 t
  exact ⟨by rw [he]; exact h.1, by rw [he]; exact h.2.1, by rw [hi]; exact h.2.2⟩

theorem reviewUpdate_inv (d : ReviewData) (t : Int) (r : ReviewResult) (x : ℚ)
    (h : RecInv d) : RecInv (reviewUpdate d t r x) := by
  obtain ⟨h1, h2, h3⟩ := h
  obtain ⟨hae, hai, _, _, _⟩ := add_review_preserves d t r x
  have hmid : RecInv ({ d.add_review t r x with last_review := some (nowUTC t) }) := by
    refine ⟨?_, ?_, ?_⟩
    · show MIN_EASE_FACTOR ≤ (d.add_review t r x).ease_factor
      rw [hae]; exact h1
    · show (d.add_review t r x).ease_factor ≤ MAX_EASE_FACTOR
      rw [hae]; exact h2
    · show 1 ≤ (d.add_review t r x).interval
      rw [hai]; exact h3
  exact calc_inv _ t (processPhase_inv _ r hmid)

theorem reviewUpdate_resp_length (d : ReviewData) (t : Int) (r : ReviewResult) (x : ℚ) :
    (reviewUpdate d t r x).response_times.length ≤ 50 := by
  simp only [reviewUpdate]
  rw [(calc_preserves _ _).2.2.2.2.2, processPhase_resp]
  show ((d.add_review t r x).response_times).length ≤ 50
  exact add_review_resp_length d t r x

theorem grd_fst (e : Engine) (id : String) :
    (e.get_review_data id).1 = (lookup e.review_data id).getD ReviewData.init := by
  unfold Engine.get_review_data
  cases h : lookup e.review_data id <;> simp [h]

theorem grd_snd_of_some (e : Engine) (id : String) (d : ReviewData)
    (h : lookup e.review_data id = some d) : (e.get_review_data id).2 = e := by
  unfold Engine.get_review_data
  rw [h]

theorem grd_snd_lookup (e : Engine) (id x : String) :
    lookup ((e.get_review_data id).2).review_data x =
      if lookup e.review_data x = none ∧ id = x then some ReviewData.init
      else lookup e.review_data x := by
  unfold Engine.get_review_data
  cases h : lookup e.review_data id
  · simp only [h]
    rw [lookup_setKey]
    by_cases hx : id = x
    · subst hx; simp [h]
    · simp [hx]
  · simp only [h]
    by_cases hx : id = x
    · subst hx; simp [h]
    · simp [hx]

theorem due_snd_lookup_some (ids : List String) :
    ∀ (e : Engine) (t : Int) (x : String) (d : ReviewData),
      lookup e.review_data x = some d →
      lookup ((e.get_due_cards t ids).2).review_data x = some d := by
  induction ids with
  | nil => intro e t x d h; exact h
  | cons id rest ih =>
    intro e t x d h
    simp only [Engine.get_due_cards]
    apply ih
    rw [grd_snd_lookup]
    simp [h]

theorem due_snd_lookup_cases (ids : List String) :
    ∀ (e : Engine) (t : Int) (x : String) (d : ReviewData),
      lookup ((e.get_due_cards t ids).2).review_data x = some d →
      lookup e.review_data x = some d ∨ d = ReviewData.init := by
  induction ids with
  | nil => intro e t x d h; exact Or.inl h
  | cons id rest ih =>
    intro e t x d h
    simp only [Engine.get_due_cards] at h
    rcases ih _ t x d h with h1 | h1
    · rw [grd_snd_lookup] at h1
      by_cases hc : lookup e.review_data x = none ∧ id = x
      · rw [if_pos hc] at h1
        exact Or.inr (Option.some.inj h1).symm
      · rw [if_neg hc] at h1
        exact Or.inl h1
    · exact Or.inr h1

theorem due_snd_all_present (ids : List String) :
    ∀ (e : Engine) (t : Int), (∀ id ∈ ids, lookup e.review_data id ≠ none) →
      (e.get_due_cards t ids).2 = e := by
  induction ids with
  | nil => intro e t _; rfl
  | cons id rest ih =>
    intro e t h
    have hid : lookup e.review_data id ≠ none := h id (by simp)
    obtain ⟨d, hd⟩ : ∃ d, lookup e.review_data id = some d := by
      cases hl : lookup e.review_data id
      · exact absurd hl hid
      · exact ⟨_, rfl⟩
    simp only [Engine.get_due_cards]
    rw [grd_snd_of_some e id d hd]
    exact ih e t (fun i hi => h i (by simp [hi]))

theorem stats_snd_lookup_some (ids : List String) :
    ∀ (e : Engine) (t : Int) (acc : StatsAcc) (x : String) (d : ReviewData),
      lookup e.review_data x = some d →
      lookup ((e.statsLoop t ids acc).2).review_data x = some d := by
  induction ids with
  | nil => intro e t acc x d h; exact h
  | cons id rest ih =>
    intro e t acc x d h
    simp only [Engine.statsLoop]
    apply ih
    rw [grd_snd_lookup]
    simp [h]

theorem stats_snd_lookup_cases (ids : List String) :
    ∀ (e : Engine) (t : Int) (acc : StatsAcc) (x : String) (d : ReviewData),
      lookup ((e.statsLoop t ids acc).2).review_data x = some d →
      lookup e.review_data x = some d ∨ d = ReviewData.init := by
  induction ids with
  | nil => intro e t acc x d h; exact Or.inl h
  | cons id rest ih =>
    intro e t acc x d h
    simp only [Engine.statsLoop] at h
    rcases ih _ t _ x d h with h1 | h1
    · rw [grd_snd_lookup] at h1
      by_cases hc : lookup e.review_data x = none ∧ id = x
      · rw [if_pos hc] at h1
        exact Or.inr (Option.some.inj h1).symm
      · rw [if_neg hc] at h1
        exact Or.inl h1
    · exact Or.inr h1

theorem stats_snd_all_present (ids : List String) :
    ∀ (e : Engine) (t : Int) (acc : StatsAcc),
      (∀ id ∈ ids, lookup e.review_data id ≠ none) →
      (e.statsLoop t ids acc).2 = e := by
  induction ids with
  | nil => intro e t acc _; rfl
  | cons id rest ih =>
    intro e t acc h
    have hid : lookup e.review_data id ≠ none := h id (by simp)
    obtain ⟨d, hd⟩ : ∃ d, lookup e.review_data id = some d := by
      cases hl : lookup e.review_data id
      · exact absurd hl hid
      · exact ⟨_, rfl⟩
    simp only [Engine.statsLoop]
    rw [grd_snd_of_some e id d hd]
    exact ih e t _ (fun i hi => h i (by simp [hi]))

theorem study_stats_snd (e : Engine) (t : Int) (ids : List String) :
    (e.get_study_stats t ids).2 = (e.statsLoop t ids {}).2 := by
  unfold Engine.get_study_stats
  split
  · rename_i h
    subst h
    rfl
  · rfl

theorem run_inv (P : Engine → Prop) (ops : List Op) :
    ∀ (e : Engine), P e → (∀ (e' : Engine) (op : Op), op ∈ ops → P e' → P (e'.step op)) →
      P (e.run ops) := by
  induction ops with
  | nil => intro e h _; exact h
  | cons op rest ih =>
    intro e h hstep
    exact ih (e.step op) (hstep e op (by simp) h)
      (fun e' op' hmem => hstep e' op' (by simp [hmem]))

theorem review_card_lookup (e : Engine) (t : Int) (id : String) (r : ReviewResult)
    (rt : ℚ) (x : String) :
    lookup (e.review_card t id r rt).review_data x =
      if id = x then
        some (reviewUpdate ((lookup e.review_data id).getD ReviewData.init) t r rt)
      else lookup e.review_data x := by
  unfold Engine.review_card
  rw [lookup_setKey, grd_fst]

theorem step_record_inv (Q : ReviewData → Prop) (hinit : Q ReviewData.init)
    (hupd : ∀ (d : ReviewData) (t : Int) (r : ReviewResult) (x : ℚ), Q d → Q (reviewUpdate d t r x))
    (e : Engine) (op : Op) (hop : ¬ op.isImport)
    (hQ : ∀ (x : String) (d : ReviewData), lookup e.review_data x = some d → Q d) :
    ∀ (x : String) (d : ReviewData), lookup (e.step op).review_data x = some d → Q d := by
  cases op with
  | review id r rt t =>
    intro x d h
    rw [Engine.step, review_card_lookup] at h
    by_cases hx : id = x
    · rw [if_pos hx] at h
      cases hl : lookup e.review_data id
      · rw [hl] at h
        exact (Option.some.inj h) ▸ hupd _ t r rt hinit
      · rw [hl] at h
        exact (Option.some.inj h) ▸ hupd _ t r rt (hQ id _ hl)
    · rw [if_neg hx] at h
      exact hQ x d h
  | getDue ids t =>
    intro x d h
    rcases due_snd_lookup_cases ids e t x d h with h1 | h1
    · exact hQ x d h1
    · exact h1 ▸ hinit
  | getStats ids t =>
    intro x d h
    rw [Engine.step, study_stats_snd] at h
    rcases stats_snd_lookup_cases ids e t {} x d h with h1 | h1
    · exact hQ x d h1
    · exact h1 ▸ hinit
  | importData s => exact absurd trivial hop

theorem fresh_lookup (x : String) : lookup Engine.fresh.review_data x = none := rfl

theorem record_inv_of_run (Q : ReviewData → Prop) (hinit : Q ReviewData.init)
    (hupd : ∀ (d : ReviewData) (t : Int) (r : ReviewResult) (x : ℚ), Q d → Q (reviewUpdate d t r x))
    (ops : List Op) (hni : ∀ op ∈ ops, ¬ op.isImport) :
    ∀ (x : String) (d : ReviewData),
      lookup (Engine.fresh.run ops).review_data x = some d → Q d := by
  apply run_inv (fun e => ∀ (x : String) (d : ReviewData), lookup e.review_data x = some d → Q d)
  · intro x d h
    rw [fresh_lookup] at h
    exact absurd h (by simp)
  · intro e' op hmem hP
    exact step_record_inv Q hinit hupd e' op (hni op hmem) hP

theorem isDue_grd (e : Engine) (t : Int) (id x : String) :
    ((e.get_review_data id).2).isDue t x = e.isDue t x := by
  unfold Engine.isDue
  rw [grd_snd_lookup]
  by_cases hc : lookup e.review_data x = none ∧ id = x
  · rw [if_pos hc, hc.1]
    rfl
  · rw [if_neg hc]

theorem hit_eq_isDue (e : Engine) (t : Int) (id : String) :
    (match ((e.get_review_data id).1).next_review with
     | none => true
     | some nr => dtLe nr (nowUTC t)) = e.isDue t id := by
  rw [grd_fst]
  unfold Engine.isDue
  cases h : lookup e.review_data id
  · rfl
  · rfl

theorem get_due_fst (ids : List String) :
    ∀ (e : Engine) (t : Int),
      (e.get_due_cards t ids).1 = ids.filter (fun id => e.isDue t id) := by
  induction ids with
  | nil => intro e t; rfl
  | cons id rest ih =>
    intro e t
    simp only [Engine.get_due_cards]
    rw [hit_eq_isDue, ih, List.filter_cons]
    have hcong : rest.filter (fun y => ((e.get_review_data id).2).isDue t y) =
        rest.filter (fun y => e.isDue t y) :=
      List.filter_congr (fun y _ => isDue_grd e t id y)
    rw [hcong]

theorem step_next_none (x : String) (e : Engine) (op : Op) (hop : ¬ op.isImport)
    (hrev : ¬ op.reviews x)
    (hP : ∀ d : ReviewData, lookup e.review_data x = some d → d.next_review = none) :
    ∀ d : ReviewData, lookup (e.step op).review_data x = some d → d.next_review = none := by
  cases op with
  | review id r rt t =>
    intro d h
    rw [Engine.step, review_card_lookup] at h
    have hne : ¬ id = x := hrev
    rw [if_neg hne] at h
    exact hP d h
  | getDue ids t =>
    intro d h
    rcases due_snd_lookup_cases ids e t x d h with h1 | h1
    · exact hP d h1
    · rw [h1]; rfl
  | getStats ids t =>
    intro d h
    rw [Engine.step, study_stats_snd] at h
    rcases stats_snd_lookup_cases ids e t {} x d h with h1 | h1
    · exact hP d h1
    · rw [h1]; rfl
  | importData s => exact absurd trivial hop

theorem run_next_none (ops : List Op) (x : String)
    (hni : ∀ op ∈ ops, ¬ op.isImport) (hrev : ∀ op ∈ ops, ¬ op.reviews x) :
    ∀ d : ReviewData, lookup (Engine.fresh.run ops).review_data x = some d →
      d.next_review = none := by
  apply run_inv
    (fun e => ∀ d : ReviewData, lookup e.review_data x = some d → d.next_review = none)
  · intro d h
    rw [fresh_lookup] at h
    exact absurd h (by simp)
  · intro e' op hmem hP
    exact step_next_none x e' op (hni op hmem) (hrev op hmem) hP

theorem fromValue_value (r : ReviewResult) : ReviewResult.fromValue r.value = .ok r := by
  cases r <;> rfl

theorem parseHistory_map (hs : List (PyDateTime × ReviewResult × ℚ)) :
    parseHistory (hs.map (fun h => (isoformat h.1, h.2.1.value, h.2.2))) = .ok hs := by
  induction hs with
  | nil => rfl
  | cons h rest ih =>
    obtain ⟨ts, r, rt⟩ := h
    simp only [List.map_cons, parseHistory, parseHistoryEntry, fromisoformat, isoformat] at ih ⊢
    rw [fromValue_value, ih]

theorem importCard_exportCard (d : ReviewData) : importCard (exportCard d) = .ok d := by
  have hl : parseOptTs (d.last_review.map isoformat) = .ok d.last_review := by
    cases d.last_review <;> rfl
  have hn : parseOptTs (d.next_review.map isoformat) = .ok d.next_review := by
    cases d.next_review <;> rfl
  simp only [importCard, exportCard]
  rw [hl, hn, parseHistory_map]

theorem import_of_export (l : List (String × ReviewData)) :
    ∀ (acc : Engine), (∀ p ∈ l, lookup acc.review_data p.1 = none) →
      (l.map Prod.fst).Nodup →
      acc.import_data (l.map (fun p => (p.1, exportCard p.2))) =
        (⟨acc.review_data ++ l⟩, none) := by
  induction l with
  | nil =>
    intro acc _ _
    show (acc, none) = (⟨acc.review_data ++ []⟩, none)
    rw [List.append_nil]
  | cons p rest ih =>
    obtain ⟨k, d⟩ := p
    intro acc hdisj hnodup
    simp only [List.map_cons, Engine.import_data, importCard_exportCard]
    rw [setKey_of_lookup_none _ _ _ (hdisj (k, d) (by simp))]
    have hk_rest : ∀ q ∈ rest, ¬ q.1 = k := by
      intro q hq hqk
      apply (List.nodup_cons.mp hnodup).1
      rw [← hqk]
      exact List.mem_map.mpr ⟨q, hq, rfl⟩
    have hdisj' : ∀ q ∈ rest, lookup (acc.review_data ++ [(k, d)]) q.1 = none := by
      intro q hq
      rw [lookup_append_single, hdisj q (by simp [hq])]
      simp only []
      rw [if_neg (fun h => hk_rest q hq h.symm)]
    rw [ih (Engine.mk (acc.review_data ++ [(k, d)])) hdisj' (List.nodup_cons.mp hnodup).2]
    show (Engine.mk ((acc.review_data ++ [(k, d)]) ++ rest), (none : Option String)) =
      (Engine.mk (acc.review_data ++ (k, d) :: rest), none)
    rw [List.append_assoc, List.singleton_append]

theorem import_stops_on_error (pre : List (String × CardSnapshot)) (id : String)
    (c : CardSnapshot) (rest : List (String × CardSnapshot)) (msg : String)
    (hc : importCard c = .error msg) :
    ∀ (e : Engine), (∀ p ∈ pre, importsOk p.2 = true) →
      e.import_data (pre ++ (id, c) :: rest) = ((e.import_data pre).1, some msg) := by
  induction pre with
  | nil =>
    intro e _
    show e.import_data ((id, c) :: rest) = (e, some msg)
    simp only [Engine.import_data, hc]
  | cons p pre' ih =>
    obtain ⟨k, cs⟩ := p
    intro e hpre
    have hok : importsOk cs = true := hpre (k, cs) (by simp)
    cases hcs : importCard cs with
    | error m =>
      unfold importsOk at hok
      rw [hcs] at hok
      exact absurd hok (by simp)
    | ok d =>
      simp only [List.cons_append, Engine.import_data, hcs]
      exact ih ⟨setKey e.review_data k d⟩ (fun q hq => hpre q (by simp [hq]))

theorem reviewUpdate_learning_frame (d : ReviewData) (t : Int) (r : ReviewResult)
    (x : ℚ) (hg : d.graduated = false) (hr : r = .AGAIN ∨ r = .HARD) :
    (reviewUpdate d t r x).ease_factor = d.ease_factor ∧
    (reviewUpdate d t r x).interval = d.interval ∧
    (reviewUpdate d t r x).repetition = d.repetition ∧
    (reviewUpdate d t r x).graduated = false := by
  obtain ⟨hae, hai, har, hag, _⟩ := add_review_preserves d t r x
  simp only [reviewUpdate]
  obtain ⟨hce, hci, hcr, hcg, _, _⟩ := calc_preserves
    (processPhase { d.add_review t r x with last_review := some (nowUTC t) } r) t
  rw [hce, hci, hcr, hcg]
  have hmidg : ({ d.add_review t r x with
      last_review := some (nowUTC t) } : ReviewData).graduated = false := by
    show (d.add_review t r x).graduated = false
    rw [hag, hg]
  unfold processPhase
  rw [if_pos hmidg]
  rcases hr with hr | hr <;> subst hr
  · rw [learn_AGAIN]
    refine ⟨?_, ?_, ?_, ?_⟩
    · show (d.add_review t .AGAIN x).ease_factor = d.ease_factor
      exact hae
    · show (d.add_review t .AGAIN x).interval = d.interval
      exact hai
    · show (d.add_review t .AGAIN x).repetition = d.repetition
      exact har
    · show (d.add_review t .AGAIN x).graduated = false
      rw [hag, hg]
  · rw [learn_HARD]
    refine ⟨?_, ?_, ?_, ?_⟩
    · show (d.add_review t .HARD x).ease_factor = d.ease_factor
      exact hae
    · show (d.add_review t .HARD x).interval = d.interval
      exact hai
    · show (d.add_review t .HARD x).repetition = d.repetition
      exact har
    · show (d.add_review t .HARD x).graduated = false
      rw [hag, hg]

theorem recInv_init : RecInv ReviewData.init := by
  refine ⟨?_, ?_, ?_⟩ <;> with_unfolding_all decide

/-- Claim C1: for every sequence of `review(card_id, outcome, response_time)`
calls starting from a fresh engine, every record's ease factor satisfies
`MIN_EASE_FACTOR ≤ ease_factor ≤ MAX_EASE_FACTOR` (i.e. `1.3 ≤ ef ≤ 5.0`)
after every call: every update path clamps the ease factor to its bounds,
and it starts at 2.5. -/
theorem C1_ease_factor_bounds (ops : List Op) (h : ∀ op ∈ ops, op.isReview)
    (card_id : String) (d : ReviewData)
    (hd : lookup (Engine.fresh.run ops).review_data card_id = some d) :
    MIN_EASE_FACTOR ≤ d.ease_factor ∧ d.ease_factor ≤ MAX_EASE_FACTOR := by
  have hni : ∀ op ∈ ops, ¬ op.isImport := by
    intro op hmem
    have hr := h op hmem
    cases op with
    | review _ _ _ _ => exact fun hc => hc
    | getDue _ _ => exact hr.elim
    | getStats _ _ => exact hr.elim
    | importData _ => exact hr.elim
  have hq := record_inv_of_run RecInv recInv_init reviewUpdate_inv ops hni card_id d hd
  exact ⟨hq.1, hq.2.1⟩

/-- Witness for C1 at the one-call trace `review("a", EASY, 1)`. -/
theorem C1_ease_factor_bounds_witness :
    MIN_EASE_FACTOR ≤ ((lookup (Engine.fresh.run [Op.review "a" .EASY 1 0]).review_data
      "a").getD ReviewData.init).ease_factor ∧
    ((lookup (Engine.fresh.run [Op.review "a" .EASY 1 0]).review_data
      "a").getD ReviewData.init).ease_factor ≤ MAX_EASE_FACTOR :=
  C1_ease_factor_bounds [Op.review "a" .EASY 1 0] (by decide) "a" _ rfl

/-- Claim C2 counterexample: for the graduated record `dGrad3`
(`repetition = 2`, `interval = 3`, ease 2.5) reviewed HARD, the code
computes `int(3 * 1.2) = 3` (truncation), while the claimed round-to-nearest
formula gives `round(3.6) = 4`, so the claim is false at this input. -/
theorem C2_round_counterexample :
    (processGraduatedReview dGrad3 .HARD).interval = 3 ∧
    specGradInterval dGrad3 .HARD = 4 ∧
    ¬ (processGraduatedReview dGrad3 .HARD).interval = specGradInterval dGrad3 .HARD := by
  have h1 : (processGraduatedReview dGrad3 .HARD).interval = 3 := by
    with_unfolding_all rfl
  have h2 : specGradInterval dGrad3 .HARD = 4 := by
    with_unfolding_all rfl
  refine ⟨h1, h2, ?_⟩
  intro h
  rw [h1, h2] at h
  omega

/-- Claim C2 (amended): for a graduated card with `repetition ≥ 2` and a
non-AGAIN outcome the new interval follows the spec's formulas with Python
`int(...)` truncation toward zero in place of round-to-nearest: HARD gives
`max(1, int(interval * 1.2))`, EASY gives
`int(interval * ease_factor * 1.3)`, GOOD gives
`int(interval * ease_factor)`, the ease factor being the one already
adjusted for this review. -/
theorem C2_interval_truncation (d : ReviewData) (result : ReviewResult)
    (hrep : 2 ≤ d.repetition) (hres : ¬ result = .AGAIN) :
    (processGraduatedReview d result).interval = specGradIntervalTrunc d result := by
  obtain ⟨hui, hur, _, _⟩ := update_ease_preserves d result
  simp only [processGraduatedReview, specGradIntervalTrunc]
  rw [if_neg hres]
  have h0 : ¬ (updateEaseFactor d result).repetition = 0 := by rw [hur]; omega
  have h1 : ¬ (updateEaseFactor d result).repetition = 1 := by rw [hur]; omega
  rw [if_neg h0, if_neg h1]
  cases result with
  | AGAIN => exact absurd rfl hres
  | HARD => simp [hui]
  | GOOD => simp [hui]
  | EASY => simp [hui]

/-- Witness for the amended C2 at `dGrad3` reviewed GOOD. -/
theorem C2_interval_truncation_witness :
    (processGraduatedReview dGrad3 .GOOD).interval = specGradIntervalTrunc dGrad3 .GOOD :=
  C2_interval_truncation dGrad3 .GOOD (by decide) (by decide)

/-- Claim C3 counterexample: `import_data` copies `graduated` and `interval`
from the snapshot with no validation, so importing a snapshot that declares
a graduated card with `interval = 0` leaves a record violating
`graduated ⇒ interval ≥ 1` — the invariant does not survive `import_state`. -/
theorem C3_import_counterexample :
    ∃ d : ReviewData,
      lookup (Engine.fresh.run [Op.importData [("g", badGradSnap)]]).review_data "g" =
        some d ∧ d.graduated = true ∧ d.interval < 1 := by
  exact ⟨{ ease_factor := 2, interval := 0, graduated := true }, rfl, rfl, by decide⟩

/-- Claim C3 (amended): after every sequence of public operations not
containing `import_state` (reviews and queries), every record with
`graduated = true` has `interval ≥ 1`; `import_state` copies `interval`
unvalidated and can break this. -/
theorem C3_graduated_interval_pos (ops : List Op) (hni : ∀ op ∈ ops, ¬ op.isImport)
    (card_id : String) (d : ReviewData)
    (hd : lookup (Engine.fresh.run ops).review_data card_id = some d)
    (hg : d.graduated = true) : 1 ≤ d.interval :=
  (record_inv_of_run RecInv recInv_init reviewUpdate_inv ops hni card_id d hd).2.2

/-- Witness for the amended C3 at a trace of three GOOD reviews, after
which card `"a"` is graduated. -/
theorem C3_graduated_interval_pos_witness :
    1 ≤ ((lookup (Engine.fresh.run [Op.review "a" .GOOD 1 0, Op.review "a" .GOOD 1 10,
      Op.review "a" .GOOD 1 20]).review_data "a").getD ReviewData.init).interval :=
  C3_graduated_interval_pos
    [Op.review "a" .GOOD 1 0, Op.review "a" .GOOD 1 10, Op.review "a" .GOOD 1 20]
    (by decide) "a" _ rfl rfl

/-- Claim C4 counterexample: importing a snapshot that gives card `"x"` an
aware future `next_review` — with `"x"` never passed to `review` — makes
`get_due_cards` omit `"x"` from the result, so "every id never passed to
review is always included" is false once `import_state` is involved.  (An
imported *naive* timestamp moreover makes Python's `next_review <= now`
comparison raise `TypeError`, refuting "never raises" as well.) -/
theorem C4_import_counterexample :
    ¬ Op.reviews "x" (Op.importData [("x", futureSnap)]) ∧
    "x" ∉ ((Engine.fresh.run [Op.importData [("x", futureSnap)]]).get_due_cards
      0 ["x"]).1 := by
  exact ⟨fun h => h, by decide⟩

/-- Claim C4 (amended): restricted to import-free histories — engine states
reachable from fresh by `review` and query operations — every stored
`next_review` timestamp is aware UTC, so the `next_review <= now`
comparison is between aware datetimes and never raises; `get_due_cards`
returns exactly those queried ids whose record is absent, has
`next_review = None`, or has `next_review ≤ now`; and every queried id
never passed to `review` is included in the result.  `import_state` breaks
the inclusion (and, via naive timestamps, the no-raise guarantee): see the
counterexample. -/
theorem C4_get_due_filter (ops : List Op) (hni : ∀ op ∈ ops, ¬ op.isImport)
    (t : Int) (card_ids : List String) (x : String)
    (hrev : ∀ op ∈ ops, ¬ op.reviews x) (hmem : x ∈ card_ids) :
    (∀ (id : String) (d : ReviewData),
      lookup (Engine.fresh.run ops).review_data id = some d →
      ∀ nr : PyDateTime, d.next_review = some nr → nr.tz = some 0) ∧
    ((Engine.fresh.run ops).get_due_cards t card_ids).1 =
      card_ids.filter (fun id => (Engine.fresh.run ops).isDue t id) ∧
    x ∈ ((Engine.fresh.run ops).get_due_cards t card_ids).1 := by
  refine ⟨?_, get_due_fst card_ids (Engine.fresh.run ops) t, ?_⟩
  · exact record_inv_of_run
      (fun d0 => ∀ nr : PyDateTime, d0.next_review = some nr → nr.tz = some 0)
      (fun nr h => by exact absurd h (by simp [ReviewData.init]))
      (fun d0 t0 r0 x0 _ => reviewUpdate_next_aware d0 t0 r0 x0) ops hni
  · rw [get_due_fst]
    apply List.mem_filter.mpr
    refine ⟨hmem, ?_⟩
    show Engine.isDue _ t x = true
    unfold Engine.isDue
    cases hl : lookup (Engine.fresh.run ops).review_data x with
    | none => rfl
    | some d =>
      show (match d.next_review with
            | none => true
            | some nr => dtLe nr (nowUTC t)) = true
      rw [run_next_none ops x hni hrev d hl]

/-- Witness for the amended C4 at the trace reviewing only `"q"`, queried
on `["a", "b"]` with `"b"` never reviewed. -/
theorem C4_get_due_filter_witness :
    (∀ (id : String) (d : ReviewData),
      lookup (Engine.fresh.run [Op.review "q" .GOOD 1 0]).review_data id = some d →
      ∀ nr : PyDateTime, d.next_review = some nr → nr.tz = some 0) ∧
    ((Engine.fresh.run [Op.review "q" .GOOD 1 0]).get_due_cards 0 ["a", "b"]).1 =
      ["a", "b"].filter
        (fun id => (Engine.fresh.run [Op.review "q" .GOOD 1 0]).isDue 0 id) ∧
    "b" ∈ ((Engine.fresh.run [Op.review "q" .GOOD 1 0]).get_due_cards 0 ["a", "b"]).1 :=
  C4_get_due_filter [Op.review "q" .GOOD 1 0] (by decide) 0 ["a", "b"] "b"
    (by decide) (by decide)

/-- Claim C5 counterexample: `get_due_cards` on a fresh engine with an
unseen id mutates the mapping — `get_review_data` inserts a default record
for the id — so the mapping is not identical before and after the call. -/
theorem C5_mutation_counterexample :
    ((Engine.fresh.get_due_cards 0 ["a"]).2).review_data ≠ Engine.fresh.review_data := by
  decide

/-- Claim C5 (amended): `get_due_cards` and `get_study_stats` never modify
or remove existing records, and when every queried id already has a record
the engine state is exactly unchanged; for unseen ids they lazily insert a
default record (the documented lazy-creation behaviour). -/
theorem C5_query_frame (e : Engine) (t : Int) (ids : List String) :
    (∀ (x : String) (d : ReviewData), lookup e.review_data x = some d →
      lookup ((e.get_due_cards t ids).2).review_data x = some d ∧
      lookup ((e.get_study_stats t ids).2).review_data x = some d) ∧
    ((∀ id ∈ ids, lookup e.review_data id ≠ none) →
      (e.get_due_cards t ids).2 = e ∧ (e.get_study_stats t ids).2 = e) := by
  constructor
  · intro x d h
    exact ⟨due_snd_lookup_some ids e t x d h,
      by rw [study_stats_snd]; exact stats_snd_lookup_some ids e t {} x d h⟩
  · intro hall
    exact ⟨due_snd_all_present ids e t hall,
      by rw [study_stats_snd]; exact stats_snd_all_present ids e t {} hall⟩

/-- Witness for the amended C5: both queries leave `eng1` unchanged when
the queried id already has a record. -/
theorem C5_query_frame_witness :
    (eng1.get_due_cards 0 ["a"]).2 = eng1 ∧ (eng1.get_study_stats 0 ["a"]).2 = eng1 :=
  (C5_query_frame eng1 0 ["a"]).2 (by decide)

/-- Claim C6 counterexample: importing a snapshot whose second entry has an
unparseable timestamp raises an error, but the first entry has already been
committed — the mapping is not what it was before the call, so the abort is
not atomic. -/
theorem C6_atomicity_counterexample :
    ((Engine.fresh.import_data [("a", goodSnap), ("b", badSnap)]).2).isSome = true ∧
    (Engine.fresh.import_data [("a", goodSnap), ("b", badSnap)]).1.review_data ≠
      Engine.fresh.review_data := by
  exact ⟨rfl, by decide⟩

/-- Claim C6 (amended): on a snapshot whose entries up to some point parse
and whose next entry is malformed, `import_data` raises that entry's error
and the final mapping is the original one with exactly the preceding
entries upserted — per-entry commit, not atomic abort. -/
theorem C6_import_per_entry_commit (e : Engine) (pre : List (String × CardSnapshot))
    (id : String) (c : CardSnapshot) (rest : List (String × CardSnapshot)) (msg : String)
    (hpre : ∀ p ∈ pre, importsOk p.2 = true) (hc : importCard c = .error msg) :
    e.import_data (pre ++ (id, c) :: rest) = ((e.import_data pre).1, some msg) :=
  import_stops_on_error pre id c rest msg hc e hpre

/-- Witness for the amended C6 at the two-entry snapshot of the
counterexample. -/
theorem C6_import_per_entry_commit_witness :
    Engine.fresh.import_data [("a", goodSnap), ("b", badSnap)] =
      ((Engine.fresh.import_data [("a", goodSnap)]).1, some "Invalid isoformat string: xx") :=
  C6_import_per_entry_commit Engine.fresh [("a", goodSnap)] "b" badSnap []
    "Invalid isoformat string: xx" (by decide) rfl

/-- Claim C7 counterexample: `import_data` copies `response_times` from the
snapshot verbatim, so importing an entry with 51 response times leaves a
record whose list exceeds the capacity of 50. -/
theorem C7_import_counterexample :
    ∃ d : ReviewData,
      lookup (Engine.fresh.run [Op.importData [("r", longSnap)]]).review_data "r" =
        some d ∧ 50 < d.response_times.length := by
  exact ⟨{ ease_factor := 2, response_times := List.replicate 51 1 }, rfl, by decide⟩

/-- Claim C7 (amended): after every import-free sequence of public
operations, every record's `response_times` has length at most 50, and
`add_review` keeps exactly the most recent 50 entries (a suffix of the
appended list — FIFO eviction of the oldest); `import_state` copies the
snapshot's list untrimmed and can exceed the bound. -/
theorem C7_response_times_bounded (ops : List Op) (hni : ∀ op ∈ ops, ¬ op.isImport)
    (card_id : String) (d : ReviewData)
    (hd : lookup (Engine.fresh.run ops).review_data card_id = some d) :
    d.response_times.length ≤ 50 ∧
    ∀ (d' : ReviewData) (t : Int) (r : ReviewResult) (rt : ℚ),
      (d'.add_review t r rt).response_times =
        (d'.response_times ++ [rt]).drop ((d'.response_times ++ [rt]).length - 50) := by
  constructor
  · exact record_inv_of_run (fun d0 => d0.response_times.length ≤ 50)
      (by decide) (fun d0 t r x _ => reviewUpdate_resp_length d0 t r x) ops hni card_id d hd
  · exact fun d' t r rt => add_review_resp d' t r rt

/-- Witness for the amended C7 at the one-call trace `review("a", GOOD, 1)`. -/
theorem C7_response_times_bounded_witness :
    ((lookup (Engine.fresh.run [Op.review "a" .GOOD 1 0]).review_data
      "a").getD ReviewData.init).response_times.length ≤ 50 ∧
    ∀ (d' : ReviewData) (t : Int) (r : ReviewResult) (rt : ℚ),
      (d'.add_review t r rt).response_times =
        (d'.response_times ++ [rt]).drop ((d'.response_times ++ [rt]).length - 50) :=
  C7_response_times_bounded [Op.review "a" .GOOD 1 0] (by decide) "a" _ rfl

/-- Claim C8: `export_data` followed by `import_data` on a fresh engine
succeeds with no error and reproduces the original mapping exactly — the
snapshot round-trips every field losslessly, including `review_history`
timestamps and outcome tags — hence `get_study_stats` at the same reference
time over the same id set is identical.  (Engine states reachable through
the public operations always have distinct keys, stated here as the
`Nodup` hypothesis.) -/
theorem C8_export_import_roundtrip (e : Engine)
    (hn : (e.review_data.map Prod.fst).Nodup) (t : Int) (ids : List String) :
    Engine.fresh.import_data e.export_data = (e, none) ∧
    ((Engine.fresh.import_data e.export_data).1.get_study_stats t ids).1 =
      (e.get_study_stats t ids).1 := by
  have h := import_of_export e.review_data Engine.fresh (fun p _ => rfl) hn
  have h2 : Engine.fresh.import_data e.export_data = (e, none) := by
    show Engine.fresh.import_data
      (e.review_data.map (fun p => (p.1, exportCard p.2))) = (e, none)
    rw [h]
    rw [show Engine.fresh.review_data ++ e.review_data = e.review_data from
      List.nil_append e.review_data]
  exact ⟨h2, by rw [h2]⟩

/-- Witness for C8 at the one-record engine `eng1`. -/
theorem C8_export_import_roundtrip_witness :
    Engine.fresh.import_data eng1.export_data = (eng1, none) ∧
    ((Engine.fresh.import_data eng1.export_data).1.get_study_stats 0 ["a"]).1 =
      (eng1.get_study_stats 0 ["a"]).1 :=
  C8_export_import_roundtrip eng1 (by decide) 0 ["a"]

/-- Claim C9 counterexample: importing a snapshot whose `last_review` is a
naive (timezone-less) timestamp neither raises an error nor normalizes —
the naive timestamp is stored in the mapping as-is. -/
theorem C9_naive_counterexample :
    (Engine.fresh.import_data [("a", naiveSnap)]).2 = none ∧
    ∃ d : ReviewData,
      lookup (Engine.fresh.import_data [("a", naiveSnap)]).1.review_data "a" = some d ∧
      ∃ ts : PyDateTime, d.last_review = some ts ∧ ts.naive = true := by
  exact ⟨rfl, ⟨{ ease_factor := 2, last_review := some ⟨0, none⟩ }, rfl,
    ⟨⟨0, none⟩, rfl, rfl⟩⟩⟩

/-- Claim C9 (amended): `import_data` stores parsed `last_review` /
`next_review` timestamps exactly as given — naive or aware — performing
neither rejection nor normalization to UTC. -/
theorem C9_timestamps_verbatim (c : CardSnapshot) (d : ReviewData)
    (h : importCard c = .ok d) :
    (∀ ts : PyDateTime, c.last_review = some (.iso ts) → d.last_review = some ts) ∧
    (∀ ts : PyDateTime, c.next_review = some (.iso ts) → d.next_review = some ts) := by
  unfold importCard at h
  cases h1 : parseOptTs c.last_review with
  | error m => rw [h1] at h; exact absurd h (by simp)
  | ok lr =>
    cases h2 : parseOptTs c.next_review with
    | error m => rw [h1, h2] at h; exact absurd h (by simp)
    | ok nr =>
      cases h3 : parseHistory c.review_history with
      | error m => rw [h1, h2, h3] at h; exact absurd h (by simp)
      | ok hist =>
        rw [h1, h2, h3] at h
        have h' : Except.ok (ε := String)
            ({ ease_factor := c.ease_factor, interval := c.interval,
               repetition := c.repetition, last_review := lr, next_review := nr,
               total_reviews := c.total_reviews,
               total_time_spent := c.total_time_spent,
               learning_step := c.learning_step, graduated := c.graduated,
               response_times := c.response_times,
               review_history := hist } : ReviewData) = Except.ok d := h
        injection h' with h4
        constructor
        · intro ts hts
          rw [hts] at h1
          have h5 : (Except.ok (ε := String) (some ts)) = Except.ok lr := h1
          injection h5 with h6
          rw [← h4, ← h6]
        · intro ts hts
          rw [hts] at h2
          have h5 : (Except.ok (ε := String) (some ts)) = Except.ok nr := h2
          injection h5 with h6
          rw [← h4, ← h6]

/-- Witness for the amended C9 at `naiveSnap`. -/
theorem C9_timestamps_verbatim_witness :
    ({ ease_factor := 2, last_review := some ⟨0, none⟩ } : ReviewData).last_review =
      some ⟨0, none⟩ :=
  (C9_timestamps_verbatim naiveSnap
    { ease_factor := 2, last_review := some ⟨0, none⟩ } rfl).1 ⟨0, none⟩ rfl

/-- Claim C10: reviewing a non-graduated (learning-phase) card with AGAIN
or HARD leaves its `ease_factor`, `interval` and `repetition` unchanged
(and the card stays non-graduated): a lapse during the learning phase
carries no ease-factor penalty. -/
theorem C10_learning_frame (e : Engine) (t : Int) (card_id : String)
    (result : ReviewResult) (response_time : ℚ) (d : ReviewData)
    (hd : lookup e.review_data card_id = some d) (hg : d.graduated = false)
    (hres : result = .AGAIN ∨ result = .HARD) :
    ∃ d' : ReviewData,
      lookup (e.review_card t card_id result response_time).review_data card_id =
        some d' ∧
      d'.ease_factor = d.ease_factor ∧ d'.interval = d.interval ∧
      d'.repetition = d.repetition ∧ d'.graduated = false := by
  obtain ⟨h1, h2, h3, h4⟩ := reviewUpdate_learning_frame d t result response_time hg hres
  refine ⟨reviewUpdate d t result response_time, ?_, h1, h2, h3, h4⟩
  rw [review_card_lookup, if_pos rfl, hd]
  rfl

/-- Witness for C10: `eng1`'s fresh record for `"a"` reviewed AGAIN. -/
theorem C10_learning_frame_witness :
    ∃ d' : ReviewData,
      lookup (eng1.review_card 5 "a" .AGAIN 2).review_data "a" = some d' ∧
      d'.ease_factor = ReviewData.init.ease_factor ∧
      d'.interval = ReviewData.init.interval ∧
      d'.repetition = ReviewData.init.repetition ∧ d'.graduated = false :=
  C10_learning_frame eng1 5 "a" .AGAIN 2 ReviewData.init rfl rfl (Or.inl rfl)

end FlashCard
